import Mathlib

/-
Verification of the `HolePunchMediator` state machine from src/hole_punch.rs.

The embedding is a direct shallow translation of the Rust source into pure
Lean functions.  The reactor ("Interface") is modelled explicitly: it tracks
the armed timers, the per-token state registry, and an event trace recording
every invocation of a caller-supplied completion continuation and every
child-terminate call.  Environment decisions the source delegates to
collaborators (whether a timer arms, whether a transport child starts,
whether the channel send succeeds, what a child reports) are passed as
explicit parameters.
-/

set_option autoImplicit false

namespace P2P

/-- Socket addresses, abstracted to naturals. -/
abbrev Addr := Nat

/-- Reactor tokens (mio Token), abstracted to naturals. -/
abbrev Token := Nat

/-- Connected sockets, abstracted to naturals. -/
abbrev Sock := Nat

/-- src/hole_punch.rs lines 21-33: the per-transport address lists. -/
structure RendezvousInfo where
  udp : List Addr
  tcp : List Addr
deriving Repr, DecidableEq

/-- Default for RendezvousInfo: both lists empty (lines 26-33). -/
def RendezvousInfo.deflt : RendezvousInfo := ⟨[], []⟩

/-- src/hole_punch.rs lines 35-47: at most one live socket per transport. -/
structure HolePunchInfo where
  tcp : Option (Sock × Token)
  udp : Option (Sock × Token)
deriving Repr, DecidableEq

/-- Default for HolePunchInfo: both absent (lines 40-47). -/
def HolePunchInfo.deflt : HolePunchInfo := ⟨none, none⟩

/-- src/hole_punch.rs line 49: the mediator's single timer slot. -/
def TIMER_ID : Nat := 0

/-- The variants of src/error.rs that hole_punch.rs can produce. -/
inductive NatError
  | timerError
  | rendezvousFailed
  | holePunchMediatorFailedToStart
  | holePunchFailed
  | invalidState
deriving Repr, DecidableEq

instance instDecEqExcept {ε α : Type} [DecidableEq ε] [DecidableEq α] :
    DecidableEq (Except ε α) := fun x y =>
  match x, y with
  | .ok a, .ok b =>
      if h : a = b then isTrue (by rw [h])
      else isFalse (by intro hc; cases hc; exact h rfl)
  | .error a, .error b =>
      if h : a = b then isTrue (by rw [h])
      else isFalse (by intro hc; cases hc; exact h rfl)
  | .ok _, .error _ => isFalse (by intro hc; cases hc)
  | .error _, .ok _ => isFalse (by intro hc; cases hc)

/-- Observable events: invocations of the two caller-supplied completion
continuations (`GetInfo` and `HolePunchFinsih`), and terminate calls made on
transport children.  A `rendezvousDone (.ok (tok, info))` records the
continuation receiving a `Handle` carrying token `tok` plus the merged info. -/
inductive Event
  | rendezvousDone (res : Except NatError (Token × RendezvousInfo))
  | punchDone (res : Except NatError HolePunchInfo)
  | udpChildTerminated
  | tcpChildTerminated
deriving Repr, DecidableEq

/-- src/hole_punch.rs lines 51-64: the phase of the mediator.  The stored
continuations are not carried in the variant; their invocations are recorded
in the event trace instead.  The `Nat` is the armed timer's handle. -/
inductive State
  | none
  | rendezvous (info : RendezvousInfo) (timeout : Nat)
  | readyToHolePunch
  | holePunching (info : HolePunchInfo) (timeout : Nat)
deriving Repr, DecidableEq

/-- Is the phase `Rendezvous`? -/
def State.isRendezvous : State → Bool
  | .rendezvous _ _ => true
  | _ => false

/-- Is the phase `HolePunching`? -/
def State.isHolePunching : State → Bool
  | .holePunching _ _ => true
  | _ => false

/-- src/hole_punch.rs lines 77-83.  The transport children are external
collaborators; only their presence (`Some` vs `None` slot) is modelled.
`self_weak` is modelled at the driver level: a closure re-enters the mediator
only while the registry still holds it. -/
structure HolePunchMediator where
  token : Token
  state : State
  udp_child : Bool
  tcp_child : Bool
deriving Repr, DecidableEq

/-- The reactor interface consumed by the mediator (the `Interface` trait):
token allocation, timer arm/cancel, the state registry, and the continuation
trace.  `timers` holds the armed timers as (handle, owner token) pairs;
`registered` records whether the mediator under scrutiny is in the registry;
`otherTokens` are tokens registered to states of some other type. -/
structure Interface where
  nextToken : Nat
  nextTimeout : Nat
  timers : List (Nat × Token)
  registered : Bool
  otherTokens : List Token
  events : List Event
deriving Repr, DecidableEq

/-- ifc.set_timeout: arm a fresh timer owned by `tok`, returning its handle. -/
def Interface.setTimeout (ifc : Interface) (tok : Token) : Nat × Interface :=
  (ifc.nextTimeout,
   { ifc with
      timers := (ifc.nextTimeout, tok) :: ifc.timers
      nextTimeout := ifc.nextTimeout + 1 })

/-- ifc.cancel_timeout: best-effort removal of an armed timer by handle. -/
def Interface.cancelTimeout (ifc : Interface) (t : Nat) : Interface :=
  { ifc with timers := ifc.timers.filter (fun p => p.1 != t) }

/-- Record a continuation invocation or child-terminate call in the trace. -/
def Interface.emit (ifc : Interface) (e : Event) : Interface :=
  { ifc with events := ifc.events ++ [e] }

/-- src/hole_punch.rs lines 331-346, `terminate`: deregister the token,
cancel the phase timer if the phase carries one, and take-and-terminate each
remaining child.  The phase itself is left as it was (the source does not
reset `self.state`). -/
def terminate (m : HolePunchMediator) (ifc : Interface) :
    HolePunchMediator × Interface :=
  let ifc := { ifc with registered := false }
  let ifc :=
    match m.state with
    | .rendezvous _ t => ifc.cancelTimeout t
    | .holePunching _ t => ifc.cancelTimeout t
    | _ => ifc
  let (m, ifc) :=
    if m.udp_child then
      ({ m with udp_child := false }, ifc.emit Event.udpChildTerminated)
    else (m, ifc)
  let (m, ifc) :=
    if m.tcp_child then
      ({ m with tcp_child := false }, ifc.emit Event.tcpChildTerminated)
    else (m, ifc)
  (m, ifc)

/-- src/hole_punch.rs lines 141-192, `handle_udp_rendezvous`: merge a UDP
rendezvous report into the pending info (on success) or drop the UDP child
slot (on failure), then decide.  Since the TCP slot is reserved-but-absent,
the decision runs after every report: if both slots are absent the phase
fails (`RendezvousFailed` to the continuation, then terminate); otherwise
the timer is cancelled, the merged info is taken, a `Handle` carrying the
mediator's token is passed to the continuation, and the phase moves to
`ReadyToHolePunch`.  In any other phase the report is logged and ignored. -/
def handle_udp_rendezvous (m : HolePunchMediator) (ifc : Interface)
    (res : Except NatError (List Addr)) : HolePunchMediator × Interface :=
  match m.state with
  | .rendezvous info t =>
      let (info, m) :=
        match res with
        | .ok ext_addrs => ({ info with udp := ext_addrs }, m)
        | .error _ => (info, { m with udp_child := false })
      if !m.tcp_child || !info.tcp.isEmpty then
        if !m.udp_child && !m.tcp_child then
          let ifc := ifc.emit (Event.rendezvousDone (.error .rendezvousFailed))
          terminate { m with state := .rendezvous info t } ifc
        else
          let ifc := ifc.cancelTimeout t
          let ifc := ifc.emit (Event.rendezvousDone (.ok (m.token, info)))
          ({ m with state := .readyToHolePunch }, ifc)
      else
        ({ m with state := .rendezvous info t }, ifc)
  | _ => (m, ifc)

/-- src/hole_punch.rs lines 194-241, `punch_hole`.  `timerOk` is whether
`ifc.set_timeout` succeeds, `udpPunchOk` whether the UDP child's own
punch_hole call starts successfully.  Wrong phase: the continuation gets
`HolePunchFailed` and nothing is mutated.  Timer failure: terminate, the
continuation is dropped uninvoked (source line 213).  All children failing
to start: terminate, then the continuation gets `HolePunchFailed`. -/
def punch_hole (m : HolePunchMediator) (ifc : Interface)
    (timerOk udpPunchOk : Bool) (_peers : RendezvousInfo) :
    HolePunchMediator × Interface :=
  match m.state with
  | .readyToHolePunch =>
      if !timerOk then
        terminate m ifc
      else
        let (t, ifc) := ifc.setTimeout m.token
        let m :=
          if m.udp_child && !udpPunchOk then { m with udp_child := false }
          else m
        if !m.udp_child && !m.tcp_child then
          let (m, ifc) := terminate m ifc
          (m, ifc.emit (Event.punchDone (.error .holePunchFailed)))
        else
          ({ m with state := .holePunching HolePunchInfo.deflt t }, ifc)
  | _ => (m, ifc.emit (Event.punchDone (.error .holePunchFailed)))

/-- src/hole_punch.rs lines 243-286, `handle_udp_hole_punch`: the UDP child
slot is vacated, a successful report installs the socket, and (with the TCP
slot absent) the phase resolves: failure if no socket was gathered, success
with the merged info otherwise; both resolutions terminate the mediator.
In any other phase the report is logged and ignored. -/
def handle_udp_hole_punch (m : HolePunchMediator) (ifc : Interface)
    (res : Except NatError (Sock × Token)) : HolePunchMediator × Interface :=
  match m.state with
  | .holePunching info t =>
      let m := { m with udp_child := false }
      let info :=
        match res with
        | .ok sock => { info with udp := some sock }
        | .error _ => info
      if !m.tcp_child && !m.udp_child then
        if info.tcp.isNone && info.udp.isNone then
          let ifc := ifc.emit (Event.punchDone (.error .holePunchFailed))
          terminate { m with state := .holePunching info t } ifc
        else
          let ifc := ifc.emit (Event.punchDone (.ok info))
          terminate { m with state := .holePunching HolePunchInfo.deflt t } ifc
      else
        ({ m with state := .holePunching info t }, ifc)
  | _ => (m, ifc)

/-- src/hole_punch.rs lines 290-329, `timeout`.  NOTE: the source compares
`timer_id` against `TIMER_ID` and logs a mismatch but has no early return
(lines 291-293), so the body below does not depend on `timer_id` at all —
a wrong id is processed exactly like the right one.  In `Rendezvous`, the
still-present UDP child is queried (`rendezvous_timeout`, whose result is
the parameter `udpRdvRes`) and the answer fed through the normal aggregation
path.  In `HolePunching`, the phase is force-resolved from whatever was
gathered and the mediator terminates.  Any other phase: warn and terminate. -/
def timeout (m : HolePunchMediator) (ifc : Interface) (timer_id : Nat)
    (udpRdvRes : Except NatError (List Addr)) :
    HolePunchMediator × Interface :=
  let _ := timer_id == TIMER_ID
  match m.state with
  | .rendezvous _ _ =>
      if m.udp_child then handle_udp_rendezvous m ifc udpRdvRes
      else (m, ifc)
  | .holePunching info t =>
      if info.tcp.isNone && info.udp.isNone then
        let ifc := ifc.emit (Event.punchDone (.error .holePunchFailed))
        terminate m ifc
      else
        let ifc := ifc.emit (Event.punchDone (.ok info))
        terminate { m with state := .holePunching HolePunchInfo.deflt t } ifc
  | _ => terminate m ifc

/-- src/hole_punch.rs lines 86-139, `start`.  `timerOk`: whether arming the
rendezvous timer succeeds; `udpStartOk`: whether the UDP child starts
(`UdpHolePunchMediator::start`); `insertOk`: whether `ifc.insert_state`
succeeds.  Returns the call's result, the registered mediator (if any), and
the updated reactor. -/
def start (ifc : Interface) (timerOk udpStartOk insertOk : Bool) :
    Except NatError Unit × Option HolePunchMediator × Interface :=
  let token := ifc.nextToken
  let ifc := { ifc with nextToken := token + 1 }
  if !timerOk then (.error .timerError, none, ifc)
  else
    let (t, ifc) := ifc.setTimeout token
    let udp_child := udpStartOk
    let tcp_child := false
    if !udp_child && !tcp_child then
      (.error .rendezvousFailed, none, ifc)
    else
      let m : HolePunchMediator :=
        { token := token
          state := .rendezvous RendezvousInfo.deflt t
          udp_child := udp_child
          tcp_child := tcp_child }
      if !insertOk then
        let (_, ifc) := terminate m ifc
        (.error .holePunchMediatorFailedToStart, none, ifc)
      else
        (.ok (), some m, { ifc with registered := true })

/-- src/hole_punch.rs lines 353-356: the cross-thread capability.  The
`tx` channel sender is modelled at the point of use (send success is an
explicit parameter). -/
structure Handle where
  token : Token
deriving Repr, DecidableEq

/-- Messages posted into the reactor by a `Handle`: the closure posted by
`fire_hole_punch` (lines 361-363) and the closure posted by the `Drop`
implementation (lines 399-402). -/
inductive NatMsg
  | punch (token : Token) (peers : RendezvousInfo)
  | dropCleanup (token : Token)
deriving Repr, DecidableEq

/-- src/hole_punch.rs lines 359-368, `fire_hole_punch`: if the channel send
succeeds the handle is `mem::forget`-ten, so only the punch message is
posted.  If the send fails, the handle is dropped normally at end of scope
and `Drop` posts the cleanup message (whose own send may fail too).
Returns the list of messages that reach the reactor. -/
def Handle.fire_hole_punch (h : Handle) (peers : RendezvousInfo)
    (sendOk dropSendOk : Bool) : List NatMsg :=
  if sendOk then [.punch h.token peers]
  else if dropSendOk then [.dropCleanup h.token]
  else []

/-- src/hole_punch.rs lines 389-393, `mediator_token`: `mem::forget` the
handle and give out the raw token; no cleanup message is ever posted. -/
def Handle.mediator_token (h : Handle) : Token × List NatMsg :=
  (h.token, [])

/-- src/hole_punch.rs lines 396-403, `Drop for Handle`: a handle that goes
out of scope unused posts the cleanup message (best-effort send). -/
def Handle.dropUnused (h : Handle) (sendOk : Bool) : List NatMsg :=
  if sendOk then [.dropCleanup h.token]
  else []

/-- The reactor-side system state: the reactor interface plus the mediator
under scrutiny, present exactly while its registry entry is (the registry
holds the only strong reference, so deregistration drops the object). -/
structure Sys where
  ifc : Interface
  med : Option HolePunchMediator
deriving Repr, DecidableEq

/-- Run a mediator method through the registry: a no-op if the mediator is
gone (the weak back-reference fails to upgrade), otherwise the method runs
and the object survives iff its registry entry does. -/
def Sys.runMed (s : Sys)
    (f : HolePunchMediator → Interface → HolePunchMediator × Interface) :
    Sys :=
  match s.med with
  | some m =>
      let r := f m s.ifc
      ⟨r.2, if r.2.registered then some r.1 else none⟩
  | none => s

/-- src/hole_punch.rs lines 370-387, `Handle::start_hole_punch` (the body of
the posted punch message): look the token up in the registry.  A registered
`HolePunchMediator` gets `punch_hole`; a state of some other type makes the
continuation fire with `InvalidState`; an unregistered token does nothing at
all (the source has no else branch), silently dropping the continuation. -/
def start_hole_punch (s : Sys) (tok : Token) (peers : RendezvousInfo)
    (timerOk udpPunchOk : Bool) : Sys :=
  if (match s.med with | some m => m.token == tok | none => false) then
    s.runMed (fun m ifc => punch_hole m ifc timerOk udpPunchOk peers)
  else if s.ifc.otherTokens.contains tok then
    ⟨s.ifc.emit (Event.punchDone (.error .invalidState)), s.med⟩
  else
    s

/-- Deliver a posted `NatMsg` on the reactor thread.  The drop-cleanup
closure (lines 400-402) terminates whatever state is registered under the
token; a state of another type has an opaque terminate of its own, modelled
as a no-op here. -/
def runMsg (s : Sys) (msg : NatMsg) (timerOk udpPunchOk : Bool) : Sys :=
  match msg with
  | .punch tok peers => start_hole_punch s tok peers timerOk udpPunchOk
  | .dropCleanup tok =>
      if (match s.med with | some m => m.token == tok | none => false) then
        s.runMed terminate
      else s

/-- The external events that can reach a started mediator: a UDP rendezvous
report, the posted punch message (with its environment decisions), a UDP
punch report, a timer firing (carrying the UDP child's synchronous
`rendezvous_timeout` answer, used only in the rendezvous phase), and a
terminate delivered via the registry (reactor shutdown or handle drop). -/
inductive SysEvent
  | rdvReport (r : Except NatError (List Addr))
  | punchMsg (timerOk udpPunchOk : Bool) (peers : RendezvousInfo)
  | punchReport (r : Except NatError (Sock × Token))
  | timerFire (r : Except NatError (List Addr))
  | terminateNow
deriving Repr, DecidableEq

/-- One reactor step.  A timer can fire only while armed; firing consumes
it and dispatches `timeout` to the state registered under its owner token
(a leaked timer whose owner is gone fires into the void). -/
def sysStep (s : Sys) (e : SysEvent) : Sys :=
  match e with
  | .rdvReport r => s.runMed (fun m ifc => handle_udp_rendezvous m ifc r)
  | .punchMsg timerOk udpPunchOk peers =>
      start_hole_punch s 0 peers timerOk udpPunchOk
  | .punchReport r => s.runMed (fun m ifc => handle_udp_hole_punch m ifc r)
  | .timerFire r =>
      match s.med with
      | some m =>
          match s.ifc.timers.find? (fun p => p.2 == m.token) with
          | some ht =>
              let s' : Sys :=
                ⟨{ s.ifc with
                    timers := s.ifc.timers.filter (fun p => p.1 != ht.1) },
                 s.med⟩
              s'.runMed (fun m ifc => timeout m ifc TIMER_ID r)
          | none => s
      | none =>
          match s.ifc.timers with
          | [] => s
          | _ :: rest => ⟨{ s.ifc with timers := rest }, none⟩
  | .terminateNow => s.runMed terminate

/-- The empty reactor. -/
def ifc0 : Interface :=
  { nextToken := 0
    nextTimeout := 0
    timers := []
    registered := false
    otherTokens := []
    events := [] }

/-- The system right after a fully successful `start` on the empty reactor:
token 0 allocated, timer handle 0 armed, mediator registered in the
rendezvous phase with a live UDP child. -/
def started : Sys :=
  match start ifc0 true true true with
  | (_, m, ifc) => ⟨ifc, m⟩

/-- The rendezvous continuation invocations recorded in a trace. -/
def rdvResolutions (evs : List Event) :
    List (Except NatError (Token × RendezvousInfo)) :=
  evs.filterMap (fun e =>
    match e with
    | .rendezvousDone r => some r
    | _ => none)

/-- The punch continuation invocations recorded in a trace. -/
def punchResolutions (evs : List Event) :
    List (Except NatError HolePunchInfo) :=
  evs.filterMap (fun e =>
    match e with
    | .punchDone r => some r
    | _ => none)

/-- The rendezvous-phase payload of an event, if it is one of the two event
kinds that drive the rendezvous phase (a report or a timer expiry). -/
def SysEvent.rdvPayload : SysEvent → Option (Except NatError (List Addr))
  | .rdvReport r => some r
  | .timerFire r => some r
  | _ => none

/-- Is this event a rendezvous report or a timer expiry? -/
def isRdvEvent (e : SysEvent) : Bool :=
  e.rdvPayload.isSome

/-- Is this event a posted fire_hole_punch message? -/
def isPunchMsg : SysEvent → Bool
  | .punchMsg _ _ _ => true
  | _ => false

/-- How many punch resolutions are still owed: 1 while the punch phase is
in flight, 0 otherwise. -/
def pendingPunch (s : Sys) : Nat :=
  match s.med with
  | some m => if m.state.isHolePunching then 1 else 0
  | none => 0

/-- The inductive invariant of the reachable system states: no foreign
registry entries, and while the mediator is alive it is the token-0
mediator, its TCP slot is empty, its registry entry present, its phase is a
real phase, in the rendezvous phase the UDP child is live, and the armed
timer set is exactly the phase timer (empty when ready). -/
def MedInv (s : Sys) : Prop :=
  s.ifc.otherTokens = [] ∧
  match s.med with
  | some m =>
      m.token = 0 ∧ m.tcp_child = false ∧ s.ifc.registered = true ∧
      (match m.state with
       | .rendezvous _ t => m.udp_child = true ∧ s.ifc.timers = [(t, 0)]
       | .readyToHolePunch => s.ifc.timers = []
       | .holePunching _ t => s.ifc.timers = [(t, 0)]
       | .none => False)
  | none => True

/-! Helper lemmas shared by the claim theorems below. -/

theorem terminate_registered (m : HolePunchMediator) (ifc : Interface) :
    (terminate m ifc).2.registered = false := by
  unfold terminate
  cases m.state <;>
    cases hu : m.udp_child <;> cases ht : m.tcp_child <;>
      simp [Interface.cancelTimeout, Interface.emit, hu, ht]

theorem terminate_punchRes (m : HolePunchMediator) (ifc : Interface) :
    punchResolutions (terminate m ifc).2.events =
      punchResolutions ifc.events := by
  unfold terminate
  cases m.state <;>
    cases hu : m.udp_child <;> cases ht : m.tcp_child <;>
      simp [Interface.cancelTimeout, Interface.emit, hu, ht,
        punchResolutions, List.filterMap_append]

theorem terminate_rdvRes (m : HolePunchMediator) (ifc : Interface) :
    rdvResolutions (terminate m ifc).2.events =
      rdvResolutions ifc.events := by
  unfold terminate
  cases m.state <;>
    cases hu : m.udp_child <;> cases ht : m.tcp_child <;>
      simp [Interface.cancelTimeout, Interface.emit, hu, ht,
        rdvResolutions, List.filterMap_append]

theorem sysStep_dead_noop (ifc : Interface) (e : SysEvent)
    (ht : ifc.timers = []) (ho : ifc.otherTokens = []) :
    sysStep ⟨ifc, none⟩ e = ⟨ifc, none⟩ := by
  cases e <;> simp [sysStep, Sys.runMed, start_hole_punch, ht, ho]

theorem foldl_dead_noop (ifc : Interface) (evs : List SysEvent)
    (ht : ifc.timers = []) (ho : ifc.otherTokens = []) :
    List.foldl sysStep ⟨ifc, none⟩ evs = ⟨ifc, none⟩ := by
  induction evs with
  | nil => rfl
  | cons e evs ih => rw [List.foldl_cons, sysStep_dead_noop ifc e ht ho]; exact ih

theorem sysStep_ready_noop (ifc : Interface) (m : HolePunchMediator)
    (e : SysEvent) (hst : m.state = .readyToHolePunch)
    (hreg : ifc.registered = true) (ht : ifc.timers = [])
    (he : isRdvEvent e = true) :
    sysStep ⟨ifc, some m⟩ e = ⟨ifc, some m⟩ := by
  cases e <;>
    simp_all [isRdvEvent, SysEvent.rdvPayload, sysStep, Sys.runMed,
      handle_udp_rendezvous]

theorem foldl_ready_noop (ifc : Interface) (m : HolePunchMediator)
    (evs : List SysEvent) (hst : m.state = .readyToHolePunch)
    (hreg : ifc.registered = true) (ht : ifc.timers = [])
    (hevs : ∀ e ∈ evs, isRdvEvent e = true) :
    List.foldl sysStep ⟨ifc, some m⟩ evs = ⟨ifc, some m⟩ := by
  induction evs with
  | nil => rfl
  | cons e evs ih =>
      rw [List.foldl_cons,
        sysStep_ready_noop ifc m e hst hreg ht (hevs e (by simp))]
      exact ih (fun e' h' => hevs e' (by simp [h']))

theorem medInv_started : MedInv started := by
  exact ⟨rfl, rfl, rfl, rfl, rfl, rfl⟩

theorem medInv_step (s : Sys) (e : SysEvent) (h : MedInv s) :
    MedInv (sysStep s e) := by
  obtain ⟨ifc, med⟩ := s
  obtain ⟨hot, hmed⟩ := h
  dsimp only at hot hmed
  cases med with
  | none =>
      cases e with
      | rdvReport r => exact ⟨hot, trivial⟩
      | punchMsg tOk uOk peers =>
          simp only [sysStep, start_hole_punch]
          simp [hot, MedInv]
      | punchReport r => exact ⟨hot, trivial⟩
      | timerFire r =>
          cases htm : ifc.timers with
          | nil => simp [sysStep, htm, MedInv, hot]
          | cons a rest => simp [sysStep, htm, MedInv, hot]
      | terminateNow => exact ⟨hot, trivial⟩
  | some m =>
      obtain ⟨tok, st, uc, tc⟩ := m
      obtain ⟨htok, htc, hreg, hst⟩ := hmed
      simp only at htok htc hreg
      subst htok htc
      cases st with
      | none => exact absurd hst id
      | rendezvous info t =>
          obtain ⟨huc, htm⟩ := hst
          simp only at huc htm
          subst huc
          cases e with
          | rdvReport r =>
              cases r with
              | ok l =>
                  simp [sysStep, Sys.runMed, handle_udp_rendezvous,
                    Interface.cancelTimeout, Interface.emit, hreg, htm,
                    MedInv, hot]
              | error er =>
                  simp [sysStep, Sys.runMed, handle_udp_rendezvous, terminate,
                    Interface.cancelTimeout, Interface.emit, hreg, htm,
                    MedInv, hot]
          | punchMsg tOk uOk peers =>
              simp [sysStep, start_hole_punch, Sys.runMed, punch_hole,
                Interface.emit, hreg, htm, MedInv, hot]
          | punchReport r =>
              simp [sysStep, Sys.runMed, handle_udp_hole_punch, hreg, htm,
                MedInv, hot]
          | timerFire r =>
              cases r with
              | ok l =>
                  simp [sysStep, Sys.runMed, timeout, handle_udp_rendezvous,
                    Interface.cancelTimeout, Interface.emit, hreg, htm,
                    MedInv, hot, TIMER_ID]
              | error er =>
                  simp [sysStep, Sys.runMed, timeout, handle_udp_rendezvous,
                    terminate, Interface.cancelTimeout, Interface.emit, hreg,
                    htm, MedInv, hot, TIMER_ID]
          | terminateNow =>
              simp [sysStep, Sys.runMed, terminate, Interface.cancelTimeout,
                Interface.emit, hreg, htm, MedInv, hot]
      | readyToHolePunch =>
          simp only at hst
          cases e with
          | rdvReport r =>
              simp [sysStep, Sys.runMed, handle_udp_rendezvous, hreg, hst,
                MedInv, hot]
          | punchMsg tOk uOk peers =>
              cases tOk with
              | false =>
                  cases uc <;>
                    simp [sysStep, start_hole_punch, Sys.runMed, punch_hole,
                      terminate, Interface.emit, hreg, hst, MedInv, hot]
              | true =>
                  cases uc <;> cases uOk <;>
                    simp [sysStep, start_hole_punch, Sys.runMed, punch_hole,
                      terminate, Interface.setTimeout, Interface.emit, hreg,
                      hst, MedInv, hot]
          | punchReport r =>
              simp [sysStep, Sys.runMed, handle_udp_hole_punch, hreg, hst,
                MedInv, hot]
          | timerFire r =>
              simp [sysStep, Sys.runMed, hreg, hst, MedInv, hot]
          | terminateNow =>
              cases uc <;>
                simp [sysStep, Sys.runMed, terminate, Interface.emit, hreg,
                  hst, MedInv, hot]
      | holePunching info t =>
          simp only at hst
          cases e with
          | rdvReport r =>
              simp [sysStep, Sys.runMed, handle_udp_rendezvous, hreg, hst,
                MedInv, hot]
          | punchMsg tOk uOk peers =>
              simp [sysStep, start_hole_punch, Sys.runMed, punch_hole,
                Interface.emit, hreg, hst, MedInv, hot]
          | punchReport r =>
              obtain ⟨itcp, iudp⟩ := info
              cases r with
              | ok sock =>
                  cases itcp <;>
                    simp [sysStep, Sys.runMed, handle_udp_hole_punch,
                      terminate, Interface.cancelTimeout, Interface.emit,
                      hreg, hst, MedInv, hot]
              | error er =>
                  cases itcp <;> cases iudp <;>
                    simp [sysStep, Sys.runMed, handle_udp_hole_punch,
                      terminate, Interface.cancelTimeout, Interface.emit,
                      hreg, hst, MedInv, hot]
          | timerFire r =>
              obtain ⟨itcp, iudp⟩ := info
              cases uc <;> cases itcp <;> cases iudp <;>
                simp [sysStep, Sys.runMed, timeout, terminate,
                  Interface.cancelTimeout, Interface.emit, hreg, hst,
                  MedInv, hot, TIMER_ID]
          | terminateNow =>
              cases uc <;>
                simp [sysStep, Sys.runMed, terminate, Interface.cancelTimeout,
                  Interface.emit, hreg, hst, MedInv, hot]

theorem medInv_foldl (s : Sys) (evs : List SysEvent) (h : MedInv s) :
    MedInv (List.foldl sysStep s evs) := by
  induction evs generalizing s with
  | nil => exact h
  | cons e evs ih => exact ih (sysStep s e) (medInv_step s e h)

theorem punchCount_step (s : Sys) (e : SysEvent) (h : MedInv s) :
    (punchResolutions (sysStep s e).ifc.events).length
        + pendingPunch (sysStep s e)
      ≤ (punchResolutions s.ifc.events).length + pendingPunch s
        + (if isPunchMsg e then 1 else 0) := by
  obtain ⟨ifc, med⟩ := s
  obtain ⟨hot, hmed⟩ := h
  dsimp only at hot hmed
  cases med with
  | none =>
      cases e with
      | rdvReport r => simp [isPunchMsg, sysStep, Sys.runMed, pendingPunch] <;> omega
      | punchMsg tOk uOk peers =>
          simp [isPunchMsg, sysStep, start_hole_punch, hot, pendingPunch, isPunchMsg] <;> omega
      | punchReport r => simp [isPunchMsg, sysStep, Sys.runMed, pendingPunch] <;> omega
      | timerFire r =>
          cases htm : ifc.timers with
          | nil => simp [isPunchMsg, sysStep, htm, pendingPunch] <;> omega
          | cons a rest => simp [isPunchMsg, sysStep, htm, pendingPunch] <;> omega
      | terminateNow => simp [isPunchMsg, sysStep, Sys.runMed, pendingPunch] <;> omega
  | some m =>
      obtain ⟨tok, st, uc, tc⟩ := m
      obtain ⟨htok, htc, hreg, hst⟩ := hmed
      simp only at htok htc hreg
      subst htok htc
      cases st with
      | none => exact absurd hst id
      | rendezvous info t =>
          obtain ⟨huc, htm⟩ := hst
          simp only at huc htm
          subst huc
          cases e with
          | rdvReport r =>
              cases r with
              | ok l =>
                  simp [isPunchMsg, sysStep, Sys.runMed, handle_udp_rendezvous,
                    Interface.cancelTimeout, Interface.emit, hreg, htm,
                    pendingPunch, punchResolutions, List.filterMap_append,
                    State.isHolePunching] <;> omega
              | error er =>
                  simp [isPunchMsg, sysStep, Sys.runMed, handle_udp_rendezvous, terminate,
                    Interface.cancelTimeout, Interface.emit, hreg, htm,
                    pendingPunch, punchResolutions, List.filterMap_append] <;> omega
          | punchMsg tOk uOk peers =>
              simp [isPunchMsg, sysStep, start_hole_punch, Sys.runMed, punch_hole,
                Interface.emit, hreg, htm, pendingPunch, punchResolutions,
                List.filterMap_append, isPunchMsg, State.isHolePunching] <;> omega
          | punchReport r =>
              simp [isPunchMsg, sysStep, Sys.runMed, handle_udp_hole_punch, hreg, htm,
                pendingPunch, State.isHolePunching] <;> omega
          | timerFire r =>
              cases r with
              | ok l =>
                  simp [isPunchMsg, sysStep, Sys.runMed, timeout, handle_udp_rendezvous,
                    Interface.cancelTimeout, Interface.emit, hreg, htm,
                    pendingPunch, punchResolutions, List.filterMap_append,
                    State.isHolePunching, TIMER_ID] <;> omega
              | error er =>
                  simp [isPunchMsg, sysStep, Sys.runMed, timeout, handle_udp_rendezvous,
                    terminate, Interface.cancelTimeout, Interface.emit, hreg,
                    htm, pendingPunch, punchResolutions,
                    List.filterMap_append, TIMER_ID] <;> omega
          | terminateNow =>
              simp [isPunchMsg, sysStep, Sys.runMed, terminate, Interface.cancelTimeout,
                Interface.emit, hreg, htm, pendingPunch, punchResolutions,
                List.filterMap_append] <;> omega
      | readyToHolePunch =>
          simp only at hst
          cases e with
          | rdvReport r =>
              simp [isPunchMsg, sysStep, Sys.runMed, handle_udp_rendezvous, hreg, hst,
                pendingPunch, State.isHolePunching] <;> omega
          | punchMsg tOk uOk peers =>
              cases tOk with
              | false =>
                  cases uc <;>
                    simp [isPunchMsg, sysStep, start_hole_punch, Sys.runMed, punch_hole,
                      terminate, Interface.emit, hreg, hst, pendingPunch,
                      punchResolutions, List.filterMap_append, isPunchMsg] <;> omega
              | true =>
                  cases uc <;> cases uOk <;>
                    simp [isPunchMsg, sysStep, start_hole_punch, Sys.runMed, punch_hole,
                      terminate, Interface.setTimeout, Interface.emit, hreg,
                      hst, pendingPunch, punchResolutions,
                      List.filterMap_append, isPunchMsg,
                      State.isHolePunching] <;> omega
          | punchReport r =>
              simp [isPunchMsg, sysStep, Sys.runMed, handle_udp_hole_punch, hreg, hst,
                pendingPunch, State.isHolePunching] <;> omega
          | timerFire r =>
              simp [isPunchMsg, sysStep, Sys.runMed, hreg, hst, pendingPunch] <;> omega
          | terminateNow =>
              cases uc <;>
                simp [isPunchMsg, sysStep, Sys.runMed, terminate, Interface.emit, hreg,
                  hst, pendingPunch, punchResolutions,
                  List.filterMap_append] <;> omega
      | holePunching info t =>
          simp only at hst
          cases e with
          | rdvReport r =>
              simp [isPunchMsg, sysStep, Sys.runMed, handle_udp_rendezvous, hreg, hst,
                pendingPunch, State.isHolePunching] <;> omega
          | punchMsg tOk uOk peers =>
              simp [isPunchMsg, sysStep, start_hole_punch, Sys.runMed, punch_hole,
                Interface.emit, hreg, hst, pendingPunch, punchResolutions,
                List.filterMap_append, isPunchMsg, State.isHolePunching] <;> omega
          | punchReport r =>
              obtain ⟨itcp, iudp⟩ := info
              cases r with
              | ok sock =>
                  cases itcp <;>
                    simp [isPunchMsg, sysStep, Sys.runMed, handle_udp_hole_punch,
                      terminate, Interface.cancelTimeout, Interface.emit,
                      hreg, hst, pendingPunch, punchResolutions,
                      List.filterMap_append, State.isHolePunching] <;> omega
              | error er =>
                  cases itcp <;> cases iudp <;>
                    simp [isPunchMsg, sysStep, Sys.runMed, handle_udp_hole_punch,
                      terminate, Interface.cancelTimeout, Interface.emit,
                      hreg, hst, pendingPunch, punchResolutions,
                      List.filterMap_append, State.isHolePunching] <;> omega
          | timerFire r =>
              obtain ⟨itcp, iudp⟩ := info
              cases uc <;> cases itcp <;> cases iudp <;>
                simp [isPunchMsg, sysStep, Sys.runMed, timeout, terminate,
                  Interface.cancelTimeout, Interface.emit, hreg, hst,
                  pendingPunch, punchResolutions, List.filterMap_append,
                  State.isHolePunching, TIMER_ID] <;> omega
          | terminateNow =>
              cases uc <;>
                simp [isPunchMsg, sysStep, Sys.runMed, terminate, Interface.cancelTimeout,
                  Interface.emit, hreg, hst, pendingPunch, punchResolutions,
                  List.filterMap_append, State.isHolePunching] <;> omega

theorem punchCount_foldl (s : Sys) (evs : List SysEvent) (h : MedInv s) :
    (punchResolutions (List.foldl sysStep s evs).ifc.events).length
        + pendingPunch (List.foldl sysStep s evs)
      ≤ (punchResolutions s.ifc.events).length + pendingPunch s
        + evs.countP (fun e => isPunchMsg e) := by
  induction evs generalizing s with
  | nil => simp
  | cons e evs ih =>
      rw [List.foldl_cons]
      have step := punchCount_step s e h
      have ih' := ih (sysStep s e) (medInv_step s e h)
      rw [List.countP_cons]
      cases hpe : isPunchMsg e <;> simp [hpe] at step ⊢ <;> omega

theorem terminate_children (m : HolePunchMediator) (ifc : Interface) :
    (terminate m ifc).1.udp_child = false ∧
      (terminate m ifc).1.tcp_child = false := by
  unfold terminate
  cases hu : m.udp_child <;> cases ht : m.tcp_child <;>
    simp [Interface.emit, hu, ht]

/-! The claim theorems. -/

/-- C4: `punch_hole` invoked while the phase is not `ReadyToHolePunch`
invokes the supplied continuation with `HolePunchFailed` and leaves the
mediator (phase, child set) and the reactor (timers, registry entry)
completely unchanged — the only effect is the recorded continuation
invocation (source lines 199-205 return before any mutation). -/
theorem c4_punch_hole_wrong_state (m : HolePunchMediator) (ifc : Interface)
    (timerOk udpPunchOk : Bool) (peers : RendezvousInfo)
    (h : m.state ≠ State.readyToHolePunch) :
    punch_hole m ifc timerOk udpPunchOk peers =
      (m, ifc.emit (Event.punchDone (.error NatError.holePunchFailed))) := by
  cases hs : m.state
  case readyToHolePunch => exact absurd hs h
  all_goals simp [punch_hole, hs]

/-- C4 witness: a concrete mediator still in the rendezvous phase. -/
theorem c4_witness :
    punch_hole ⟨0, State.rendezvous ⟨[], []⟩ 0, true, false⟩ ifc0 true true
        ⟨[], []⟩ =
      (⟨0, State.rendezvous ⟨[], []⟩ 0, true, false⟩,
       ifc0.emit (Event.punchDone (.error NatError.holePunchFailed))) :=
  c4_punch_hole_wrong_state ⟨0, State.rendezvous ⟨[], []⟩ 0, true, false⟩
    ifc0 true true ⟨[], []⟩ (by decide)

/-- C7: `terminate` is idempotent — running it a second time on the result
of the first run reproduces that result exactly: no further registry
removal, timer cancellation, child-terminate event or error of any kind. -/
theorem c7_terminate_idempotent (m : HolePunchMediator) (ifc : Interface) :
    terminate (terminate m ifc).1 (terminate m ifc).2 = terminate m ifc := by
  obtain ⟨tok, st, uc, tc⟩ := m
  cases st <;> cases uc <;> cases tc <;>
    simp [terminate, Interface.cancelTimeout, Interface.emit,
      List.filter_filter]

/-- C10: when `start` fails with `RendezvousFailed` because no transport
child could be started, nothing is registered with the reactor, no
continuation is ever invoked (the trace is untouched), and the rendezvous
timer armed at the beginning of `start` is left armed — the early-exit path
(source line 117) does not cancel it. -/
theorem c10_start_early_exit (ifc : Interface) (insertOk : Bool) :
    (start ifc true false insertOk).1 = .error NatError.rendezvousFailed ∧
    (start ifc true false insertOk).2.1 = none ∧
    (start ifc true false insertOk).2.2.registered = ifc.registered ∧
    (start ifc true false insertOk).2.2.events = ifc.events ∧
    (ifc.nextTimeout, ifc.nextToken) ∈
      (start ifc true false insertOk).2.2.timers := by
  simp [start, Interface.setTimeout]

/-- C5 (code bug): the source logs an invalid timer id (lines 291-293) but
lacks an early return, so `timeout` with id 1 (≠ TIMER_ID = 0) delivered to
a mediator in the HolePunching phase is processed exactly like a genuine
expiry instead of being a logged no-op: the punch continuation fires with
the gathered info, the registry entry is removed, the timer is cancelled
and the UDP child is terminated. -/
theorem c5_wrong_timer_id_processed :
    timeout ⟨0, State.holePunching ⟨none, some (9, 4)⟩ 1, true, false⟩
        ⟨1, 2, [(1, 0)], true, [], []⟩ 1 (.ok []) =
      (⟨0, State.holePunching ⟨none, none⟩ 1, false, false⟩,
       ⟨1, 2, [], false, [],
        [Event.punchDone (.ok ⟨none, some (9, 4)⟩),
         Event.udpChildTerminated]⟩) := by
  decide

/-- C2 (amended): the posted fire_hole_punch message, delivered on the
reactor thread, calls `punch_hole` when the token is registered to a
`HolePunchMediator`; when the token is registered to a state of some other
type the continuation is invoked with `InvalidState`; when the token is
registered to nothing at all, the message does nothing — the continuation
is never invoked (the source lacks an else branch at lines 375-386). -/
theorem c2_message_dispatch (s : Sys) (tok : Token) (peers : RendezvousInfo)
    (timerOk udpPunchOk : Bool) :
    (∀ m, s.med = some m → m.token = tok →
        start_hole_punch s tok peers timerOk udpPunchOk =
          s.runMed (fun m ifc => punch_hole m ifc timerOk udpPunchOk peers)) ∧
    ((∀ m, s.med = some m → m.token ≠ tok) → tok ∈ s.ifc.otherTokens →
        start_hole_punch s tok peers timerOk udpPunchOk =
          ⟨s.ifc.emit (Event.punchDone (.error NatError.invalidState)),
           s.med⟩) ∧
    ((∀ m, s.med = some m → m.token ≠ tok) → tok ∉ s.ifc.otherTokens →
        start_hole_punch s tok peers timerOk udpPunchOk = s) := by
  refine ⟨?_, ?_, ?_⟩
  · intro m hm htk
    simp [start_hole_punch, hm, htk]
  · intro hne hmem
    cases hm : s.med with
    | none => simp [start_hole_punch, hm, hmem]
    | some m => simp [start_hole_punch, hm, hmem, hne m hm]
  · intro hne hmem
    cases hm : s.med with
    | none => simp [start_hole_punch, hm, hmem]
    | some m => simp [start_hole_punch, hm, hmem, hne m hm]

/-- C2 witness: an unregistered token makes the message a no-op. -/
theorem c2_witness :
    start_hole_punch ⟨ifc0, none⟩ 5 ⟨[], []⟩ true true = ⟨ifc0, none⟩ :=
  (c2_message_dispatch ⟨ifc0, none⟩ 5 ⟨[], []⟩ true true).2.2
    (fun m hm => nomatch hm) (by decide)

/-- C2 counterexample: the claim asserts that a token which refers to
nothing at all makes the completion continuation fire with `InvalidState`;
in fact the message dispatched for an unregistered token leaves the trace
empty — the continuation is silently dropped, never invoked. -/
theorem c2_counterexample :
    (start_hole_punch ⟨ifc0, none⟩ 5 ⟨[], []⟩ true true).ifc.events = [] := by
  decide

/-- C8 (amended): the Handle is a use-once capability.  Calling
`fire_hole_punch` consumes it without running its drop-time cleanup
provided the channel send succeeds; `mediator_token` always consumes it
without cleanup; a handle dropped unused posts the cleanup message, and
delivering that message while the mediator is still registered under the
handle's token terminates it (registry entry removed) without invoking any
punch callback. -/
theorem c8_handle_linear (h : Handle) (peers : RendezvousInfo)
    (dropSendOk : Bool) (s : Sys) (m : HolePunchMediator)
    (hm : s.med = some m) (ht : m.token = h.token) :
    Handle.fire_hole_punch h peers true dropSendOk =
      [NatMsg.punch h.token peers] ∧
    Handle.mediator_token h = (h.token, []) ∧
    Handle.dropUnused h true = [NatMsg.dropCleanup h.token] ∧
    runMsg s (NatMsg.dropCleanup h.token) true true = s.runMed terminate ∧
    (runMsg s (NatMsg.dropCleanup h.token) true true).med = none ∧
    punchResolutions
        (runMsg s (NatMsg.dropCleanup h.token) true true).ifc.events =
      punchResolutions s.ifc.events := by
  refine ⟨rfl, rfl, rfl, ?_, ?_, ?_⟩
  · simp [runMsg, hm, ht]
  · simp [runMsg, hm, ht, Sys.runMed, terminate_registered]
  · simp [runMsg, hm, ht, Sys.runMed, terminate_registered,
      terminate_punchRes]

/-- C8 witness: dropping the handle of the started mediator terminates it. -/
theorem c8_witness :
    (runMsg started (NatMsg.dropCleanup 0) true true).med = none :=
  (c8_handle_linear ⟨0⟩ ⟨[], []⟩ true started
    ⟨0, State.rendezvous ⟨[], []⟩ 0, true, false⟩ rfl rfl).2.2.2.2.1

/-- C8 counterexample: the claim asserts `fire_hole_punch` consumes the
handle without running its drop-time cleanup, but when the channel send
fails (source line 361) the handle is not forgotten, so its `Drop` runs and
posts the cleanup message. -/
theorem c8_counterexample :
    Handle.fire_hole_punch ⟨0⟩ ⟨[], []⟩ false true =
      [NatMsg.dropCleanup 0] := by
  decide

/-- C6: when the punch-phase timer expires for a mediator in the
HolePunching phase, the phase is force-resolved from whatever has been
gathered — the continuation fires with success carrying the partial
`HolePunchInfo` when it holds at least one live socket and with
`HolePunchFailed` when it holds none — and the mediator then terminates
(registry entry removed, children released). -/
theorem c6_punch_timeout_force_resolution (m : HolePunchMediator)
    (ifc : Interface) (info : HolePunchInfo) (t : Nat)
    (r : Except NatError (List Addr))
    (h : m.state = State.holePunching info t) :
    punchResolutions (timeout m ifc TIMER_ID r).2.events =
      punchResolutions ifc.events ++
        [if info.tcp.isNone && info.udp.isNone then
           .error NatError.holePunchFailed
         else .ok info] ∧
    (timeout m ifc TIMER_ID r).2.registered = false ∧
    (timeout m ifc TIMER_ID r).1.udp_child = false ∧
    (timeout m ifc TIMER_ID r).1.tcp_child = false := by
  refine ⟨?_, ?_, ?_, ?_⟩ <;>
    cases hcond : (info.tcp.isNone && info.udp.isNone) <;>
      simp only [timeout, h, hcond, Bool.false_eq_true, if_false, if_true,
        reduceIte] <;>
      first
      | (rw [terminate_punchRes]
         simp [Interface.emit, punchResolutions, List.filterMap_append])
      | exact terminate_registered _ _
      | exact (terminate_children _ _).1
      | exact (terminate_children _ _).2

/-- C6 witness: a partial info with one live UDP socket resolves success. -/
theorem c6_witness :
    punchResolutions
        (timeout ⟨0, State.holePunching ⟨none, some (9, 4)⟩ 1, true, false⟩
          ifc0 TIMER_ID (.ok [])).2.events =
      punchResolutions ifc0.events ++
        [if (⟨none, some (9, 4)⟩ : HolePunchInfo).tcp.isNone &&
            (⟨none, some (9, 4)⟩ : HolePunchInfo).udp.isNone then
           .error NatError.holePunchFailed
         else .ok ⟨none, some (9, 4)⟩] ∧
    (timeout ⟨0, State.holePunching ⟨none, some (9, 4)⟩ 1, true, false⟩
        ifc0 TIMER_ID (.ok [])).2.registered = false ∧
    (timeout ⟨0, State.holePunching ⟨none, some (9, 4)⟩ 1, true, false⟩
        ifc0 TIMER_ID (.ok [])).1.udp_child = false ∧
    (timeout ⟨0, State.holePunching ⟨none, some (9, 4)⟩ 1, true, false⟩
        ifc0 TIMER_ID (.ok [])).1.tcp_child = false :=
  c6_punch_timeout_force_resolution
    ⟨0, State.holePunching ⟨none, some (9, 4)⟩ 1, true, false⟩ ifc0
    ⟨none, some (9, 4)⟩ 1 (.ok []) rfl

/-- C3 (amended): `start` resolves only through its return value — it never
invokes a continuation itself (both resolution traces are untouched on
every path).  A timer-arm failure inside `punch_hole` terminates the
mediator without invoking the punch continuation (zero resolutions, the
amendment to the claim).  Across any run of the started system containing
at most one posted fire_hole_punch message, the punch continuation fires at
most once. -/
theorem c3_resolve_at_most_once :
    (∀ ifc timerOk udpStartOk insertOk,
        rdvResolutions (start ifc timerOk udpStartOk insertOk).2.2.events =
          rdvResolutions ifc.events ∧
        punchResolutions (start ifc timerOk udpStartOk insertOk).2.2.events =
          punchResolutions ifc.events) ∧
    (∀ m ifc udpPunchOk peers, m.state = State.readyToHolePunch →
        punchResolutions (punch_hole m ifc false udpPunchOk peers).2.events =
          punchResolutions ifc.events ∧
        (punch_hole m ifc false udpPunchOk peers).2.registered = false) ∧
    (∀ evs : List SysEvent, evs.countP (fun e => isPunchMsg e) ≤ 1 →
        (punchResolutions
            (List.foldl sysStep started evs).ifc.events).length ≤ 1) := by
  refine ⟨?_, ?_, ?_⟩
  · intro ifc timerOk udpStartOk insertOk
    cases timerOk <;> cases udpStartOk <;> cases insertOk <;>
      simp [start, Interface.setTimeout, terminate_rdvRes,
        terminate_punchRes]
  · intro m ifc udpPunchOk peers h
    simp [punch_hole, h, terminate_punchRes, terminate_registered]
  · intro evs hcount
    have hb := punchCount_foldl started evs medInv_started
    have h0 : (punchResolutions started.ifc.events).length = 0 := by decide
    have h1 : pendingPunch started = 0 := by decide
    omega

/-- C3 witness: one posted punch message yields at most one resolution. -/
theorem c3_witness :
    (punchResolutions
        (List.foldl sysStep started
          [SysEvent.punchMsg true true ⟨[], []⟩]).ifc.events).length ≤ 1 :=
  c3_resolve_at_most_once.2.2 [SysEvent.punchMsg true true ⟨[], []⟩]
    (by decide)

/-- C3 counterexample: the claim asserts a timer-arm failure inside
`punch_hole` still surfaces exactly once via the punch completion
continuation; in fact the run that reaches `ReadyToHolePunch` and then
posts the punch message with a failing timer ends with the mediator
terminated and the punch continuation never invoked (zero resolutions). -/
theorem c3_counterexample :
    punchResolutions
        (List.foldl sysStep started
          [SysEvent.rdvReport (.ok [7]),
           SysEvent.punchMsg false true ⟨[3], []⟩]).ifc.events = [] ∧
    (List.foldl sysStep started
        [SysEvent.rdvReport (.ok [7]),
         SysEvent.punchMsg false true ⟨[3], []⟩]).med = none := by
  decide

/-- C9: in every reachable system state whose mediator is still alive, a
timer armed on the mediator's behalf is outstanding iff the phase is
`Rendezvous` or `HolePunching`, and at most one such timer is outstanding. -/
theorem c9_timer_iff_phase (evs : List SysEvent) (m : HolePunchMediator)
    (h : (List.foldl sysStep started evs).med = some m) :
    ((∃ p ∈ (List.foldl sysStep started evs).ifc.timers, p.2 = m.token) ↔
      (m.state.isRendezvous = true ∨ m.state.isHolePunching = true)) ∧
    ((List.foldl sysStep started evs).ifc.timers.filter
        (fun p => p.2 == m.token)).length ≤ 1 := by
  have hinv := medInv_foldl started evs medInv_started
  obtain ⟨hot, hmed⟩ := hinv
  rw [h] at hmed
  simp only at hmed
  obtain ⟨htok, htc, hreg, hst⟩ := hmed
  cases hs : m.state with
  | none => rw [hs] at hst; exact absurd hst id
  | rendezvous info t =>
      rw [hs] at hst
      obtain ⟨huc, htm⟩ := hst
      rw [htm, htok]
      constructor
      · constructor
        · intro _; exact Or.inl (by simp [hs, State.isRendezvous])
        · intro _; exact ⟨(t, 0), by simp⟩
      · simp
  | readyToHolePunch =>
      rw [hs] at hst
      rw [hst]
      constructor
      · constructor
        · intro hex; obtain ⟨p, hp, _⟩ := hex; exact absurd hp (by simp)
        · intro hor
          cases hor with
          | inl h1 => exact absurd h1 (by simp [State.isRendezvous])
          | inr h1 => exact absurd h1 (by simp [State.isHolePunching])
      · simp
  | holePunching info t =>
      rw [hs] at hst
      rw [hst, htok]
      constructor
      · constructor
        · intro _; exact Or.inr (by simp [hs, State.isHolePunching])
        · intro _; exact ⟨(t, 0), by simp⟩
      · simp

/-- C9 witness: the invariant evaluated right after a successful start. -/
theorem c9_witness :
    ((∃ p ∈ (List.foldl sysStep started []).ifc.timers,
        p.2 = (⟨0, State.rendezvous ⟨[], []⟩ 0, true, false⟩ :
          HolePunchMediator).token) ↔
      ((⟨0, State.rendezvous ⟨[], []⟩ 0, true, false⟩ :
          HolePunchMediator).state.isRendezvous = true ∨
       (⟨0, State.rendezvous ⟨[], []⟩ 0, true, false⟩ :
          HolePunchMediator).state.isHolePunching = true)) ∧
    ((List.foldl sysStep started []).ifc.timers.filter
        (fun p => p.2 ==
          (⟨0, State.rendezvous ⟨[], []⟩ 0, true, false⟩ :
            HolePunchMediator).token)).length ≤ 1 :=
  c9_timer_iff_phase [] ⟨0, State.rendezvous ⟨[], []⟩ 0, true, false⟩ rfl

/-- C1 (amended): over every non-empty sequence of rendezvous-phase events
(UDP reports and timer expiries) whose successful payloads carry non-empty
address lists — the contract the source documents for its children at lines
148-149 — the rendezvous phase of the started mediator resolves exactly
once, decided by the first event: a successful payload resolves to success
with the timer cancelled, the phase moved to `ReadyToHolePunch`, and the
continuation receiving a `Handle` (token 0) plus the merged, non-empty
`RendezvousInfo`; a failure payload resolves to `RendezvousFailed` and the
mediator terminates.  Later events never resolve the phase again. -/
theorem c1_rendezvous_resolution (e : SysEvent) (evs : List SysEvent)
    (r : Except NatError (List Addr)) (hr : e.rdvPayload = some r)
    (hevs : ∀ e' ∈ evs, isRdvEvent e' = true)
    (hne : ∀ l, r = .ok l → l ≠ []) :
    (∀ l, r = .ok l →
        rdvResolutions (List.foldl sysStep started (e :: evs)).ifc.events =
          [.ok (0, ⟨l, []⟩)] ∧
        l ≠ [] ∧
        (List.foldl sysStep started (e :: evs)).med =
          some ⟨0, State.readyToHolePunch, true, false⟩ ∧
        (List.foldl sysStep started (e :: evs)).ifc.timers = []) ∧
    (∀ er, r = .error er →
        rdvResolutions (List.foldl sysStep started (e :: evs)).ifc.events =
          [.error NatError.rendezvousFailed] ∧
        (List.foldl sysStep started (e :: evs)).med = none) := by
  have stepOk : ∀ l : List Addr,
      sysStep started (SysEvent.rdvReport (Except.ok l)) =
        ⟨⟨1, 1, [], true, [],
          [Event.rendezvousDone (.ok (0, ⟨l, []⟩))]⟩,
         some ⟨0, State.readyToHolePunch, true, false⟩⟩ := fun _ => rfl
  have stepErr : ∀ er : NatError,
      sysStep started (SysEvent.rdvReport (Except.error er)) =
        ⟨⟨1, 1, [], false, [],
          [Event.rendezvousDone (.error NatError.rendezvousFailed)]⟩,
         none⟩ := fun _ => rfl
  have stepOkT : ∀ l : List Addr,
      sysStep started (SysEvent.timerFire (Except.ok l)) =
        ⟨⟨1, 1, [], true, [],
          [Event.rendezvousDone (.ok (0, ⟨l, []⟩))]⟩,
         some ⟨0, State.readyToHolePunch, true, false⟩⟩ := fun _ => rfl
  have stepErrT : ∀ er : NatError,
      sysStep started (SysEvent.timerFire (Except.error er)) =
        ⟨⟨1, 1, [], false, [],
          [Event.rendezvousDone (.error NatError.rendezvousFailed)]⟩,
         none⟩ := fun _ => rfl
  cases e with
  | rdvReport r0 =>
      injection hr with hr0
      subst hr0
      cases r0 with
      | ok l0 =>
          refine ⟨?_, ?_⟩
          · intro l hl
            cases hl
            rw [List.foldl_cons, stepOk l0,
              foldl_ready_noop _ _ evs rfl rfl rfl hevs]
            exact ⟨rfl, hne l0 rfl, rfl, rfl⟩
          · intro er hl
            exact nomatch hl
      | error er0 =>
          refine ⟨?_, ?_⟩
          · intro l hl
            exact nomatch hl
          · intro er hl
            rw [List.foldl_cons, stepErr er0, foldl_dead_noop _ evs rfl rfl]
            exact ⟨rfl, rfl⟩
  | timerFire r0 =>
      injection hr with hr0
      subst hr0
      cases r0 with
      | ok l0 =>
          refine ⟨?_, ?_⟩
          · intro l hl
            cases hl
            rw [List.foldl_cons, stepOkT l0,
              foldl_ready_noop _ _ evs rfl rfl rfl hevs]
            exact ⟨rfl, hne l0 rfl, rfl, rfl⟩
          · intro er hl
            exact nomatch hl
      | error er0 =>
          refine ⟨?_, ?_⟩
          · intro l hl
            exact nomatch hl
          · intro er hl
            rw [List.foldl_cons, stepErrT er0, foldl_dead_noop _ evs rfl rfl]
            exact ⟨rfl, rfl⟩
  | punchMsg tOk uOk peers => exact nomatch hr
  | punchReport r0 => exact nomatch hr
  | terminateNow => exact nomatch hr

/-- C1 witness: a single successful report with a non-empty list. -/
theorem c1_witness :
    rdvResolutions (List.foldl sysStep started
        [SysEvent.rdvReport (.ok [7])]).ifc.events = [.ok (0, ⟨[7], []⟩)] ∧
    ([7] : List Addr) ≠ [] ∧
    (List.foldl sysStep started [SysEvent.rdvReport (.ok [7])]).med =
      some ⟨0, State.readyToHolePunch, true, false⟩ ∧
    (List.foldl sysStep started
        [SysEvent.rdvReport (.ok [7])]).ifc.timers = [] :=
  (c1_rendezvous_resolution (SysEvent.rdvReport (.ok [7])) [] (.ok [7]) rfl
    (fun e' h' => nomatch h') (fun l hl => by cases hl; decide)).1 [7] rfl

/-- C1 counterexample: the claim's iff fails as universally stated — a
successful report carrying an empty address list resolves the phase to
success even though every merged address list in the pending
`RendezvousInfo` is empty (the source, lines 147-150, only checks that a
child slot survives, trusting children never to report an empty list). -/
theorem c1_counterexample :
    rdvResolutions (List.foldl sysStep started
        [SysEvent.rdvReport (.ok [])]).ifc.events =
      [.ok (0, ⟨[], []⟩)] := by
  decide

end P2P
